import Mathlib

/-!
Verification of the zenoh person-follow codec pair:
  * src/task_definitions/ros2/zenoh_person_follow.py (create_twist_message, parse_ros2_image)
  * src/task_definitions/ros2/monitor_twist_commands.py (parse_twist_message)

Byte buffers are modelled as lists of naturals (each byte lies in [0, 256));
64-bit floats are modelled by their IEEE-754 bit patterns (naturals below 2^64),
since struct.pack and struct.unpack move the 8 bytes bit-for-bit and the
claims are about bit-for-bit equality, never float arithmetic.
-/

/-- Little-endian 8-byte serialization of a 64-bit pattern, exactly the bytes
struct.pack_into writes for one double (format d, little endian). -/
def toLEBytes8 (bits : Nat) : List Nat :=
  [bits % 256, bits / 256 % 256, bits / 256 ^ 2 % 256, bits / 256 ^ 3 % 256,
   bits / 256 ^ 4 % 256, bits / 256 ^ 5 % 256, bits / 256 ^ 6 % 256, bits / 256 ^ 7 % 256]

/-- Little-endian value of a byte list, least significant byte first: the bit
pattern struct.unpack reads from consecutive bytes. -/
def bytesToNatLE : List Nat → Nat
  | [] => 0
  | b :: bs => b + 256 * bytesToNatLE bs

/-- The 64-bit pattern struct.unpack (format d, little endian) reads at byte
offset pos of the buffer. -/
def readF64At (l : List Nat) (pos : Nat) : Nat :=
  bytesToNatLE ((l.drop pos).take 8)

/-- A 64-bit pattern is a finite float when its exponent field is not all ones
(all-ones exponent encodes infinities and NaNs). -/
def isFiniteF64 (bits : Nat) : Prop := bits / 2 ^ 52 % 2 ^ 11 ≠ 2047

instance (bits : Nat) : Decidable (isFiniteF64 bits) := by
  unfold isFiniteF64; infer_instance

/-- Three velocity components, each a 64-bit float bit pattern. -/
structure Vec3 where
  x : Nat
  y : Nat
  z : Nat
deriving DecidableEq, Repr

/-- Decoded geometry_msgs/Twist: linear and angular velocity triples. -/
structure Twist where
  linear : Vec3
  angular : Vec3
deriving DecidableEq, Repr

/-- The single failure path of parse_twist_message: the buffer length is not 48
(the code logs the invalid size and returns None; the spec calls this error
MalformedLength). With exactly 48 bytes, the fixed-offset struct.unpack calls
cannot fail, so no other error exists. -/
inductive TwistError where
  | malformedLength (got : Nat)
deriving DecidableEq, Repr

/-- Embedding of create_twist_message (zenoh_person_follow.py lines 158-174):
a 48-byte buffer holding six little-endian doubles; struct.pack_into writes
(linear_x, 0.0, 0.0) at offset 0 and (0.0, 0.0, angular_z) at offset 24.
The bit pattern of 0.0 is 0. The except-branch (re-encoding a stop command)
is unreachable: packing any float into a 48-byte bytearray cannot raise. -/
def create_twist_message (linear_x angular_z : Nat) : List Nat :=
  toLEBytes8 linear_x ++ toLEBytes8 0 ++ toLEBytes8 0 ++
    toLEBytes8 0 ++ toLEBytes8 0 ++ toLEBytes8 angular_z

/-- Embedding of parse_twist_message (monitor_twist_commands.py lines 13-32):
reject any buffer whose length is not 48, otherwise unpack six little-endian
doubles at offsets 0, 8, 16 (linear x, y, z) and 24, 32, 40 (angular x, y, z)
with no further validation. -/
def parse_twist_message (data : List Nat) : Except TwistError Twist :=
  if data.length = 48 then
    Except.ok
      { linear := ⟨readF64At data 0, readF64At data 8, readF64At data 16⟩
        angular := ⟨readF64At data 24, readF64At data 32, readF64At data 40⟩ }
  else
    Except.error (TwistError.malformedLength data.length)

/-- ASCII bytes of the literal camera used to locate the frame_id field. -/
def cameraMarker : List Nat := [99, 97, 109, 101, 114, 97]

/-- ASCII bytes of the literal rgb8 used to locate the encoding field. -/
def rgb8Marker : List Nat := [114, 103, 98, 56]

/-- True when pat is an initial segment of l (byte-wise equality). -/
def listStartsWith : List Nat → List Nat → Bool
  | [], _ => true
  | _ :: _, [] => false
  | p :: ps, x :: xs => p == x && listStartsWith ps xs

/-- Scan of bytes.find from position i upward: the first index at or after i
where pat occurs, none when it never does (Python returns -1 there). -/
def findSubAux (pat : List Nat) : List Nat → Nat → Option Nat
  | [], i => if listStartsWith pat [] then some i else none
  | x :: xs, i =>
    if listStartsWith pat (x :: xs) then some i else findSubAux pat xs (i + 1)

/-- Embedding of payload_bytes.find(marker): index of the first occurrence of
pat in l, none when absent. -/
def findSub (pat l : List Nat) : Option Nat := findSubAux pat l 0

/-- Embedding of struct.unpack of one little-endian uint32 from the slice
l[pos:pos+4]: fails (struct.error, caught by the handler) when fewer than
4 bytes remain at pos. -/
def readU32LE (l : List Nat) (pos : Nat) : Option Nat :=
  match l.drop pos with
  | b0 :: b1 :: b2 :: b3 :: _ => some (b0 + 256 * (b1 + 256 * (b2 + 256 * b3)))
  | _ => none

/-- Failure paths of parse_ros2_image. The Python function returns None on all
of them; the constructors record which exit was taken, in the spec's error
vocabulary: markerNotFound for the two failed bytes.find searches,
invalidOffset for the frame_id length position check, structError for a
struct.unpack on a short slice, typeError for int() applied to the complex
result of raising a negative pixel count to 0.5, zeroDivisionError for the
floor division by a zero width, insufficientPayload for a reshape with too
few bytes. -/
inductive ImgError where
  | markerNotFound (which : String)
  | invalidOffset
  | structError
  | typeError
  | zeroDivisionError
  | insufficientPayload
deriving DecidableEq, Repr

/-- Decoded frame: the reconciled dimensions and the pixel byte slice. -/
structure DecodedFrame where
  width : Nat
  height : Nat
  pixels : List Nat
deriving DecidableEq, Repr

instance {ε α : Type} [DecidableEq ε] [DecidableEq α] : DecidableEq (Except ε α) :=
  fun a b =>
    match a, b with
    | Except.ok x, Except.ok y =>
      if h : x = y then Decidable.isTrue (by rw [h])
      else Decidable.isFalse (fun hc => h (Except.ok.inj hc))
    | Except.error x, Except.error y =>
      if h : x = y then Decidable.isTrue (by rw [h])
      else Decidable.isFalse (fun hc => h (Except.error.inj hc))
    | Except.ok _, Except.error _ => Decidable.isFalse (fun hc => Except.noConfusion hc)
    | Except.error _, Except.ok _ => Decidable.isFalse (fun hc => Except.noConfusion hc)

/-- The static table of common camera resolutions, in the priority order of
zenoh_person_follow.py lines 71-74. -/
def common_resolutions : List (Nat × Nat) :=
  [(640, 480), (800, 600), (1024, 768), (1280, 720), (1280, 960),
   (1920, 1080), (1280, 1024), (1600, 1200)]

/-- The for-loop of lines 76-81: the first candidate (w, h) whose expected
size w * h * 3 is within 100 bytes of the raw payload size, none when the
loop falls through to its else branch. -/
def matchResolution (imageDataSize : Int) : Option (Nat × Nat) :=
  common_resolutions.find? fun wh =>
    ((wh.1 * wh.2 * 3 : Int) - imageDataSize).natAbs < 100

/-- Largest j with j ≤ k and j * j ≤ n (0 when none), by downward scan. -/
def isqrtAux (n : Nat) : Nat → Nat
  | 0 => 0
  | k + 1 => if (k + 1) * (k + 1) ≤ n then k + 1 else isqrtAux n k

/-- Floor integer square root, the value of int(n ** 0.5) in the source for
every feasible payload: the double square root is correctly rounded, so
truncation agrees with the integer floor for all n below 2 ^ 52, far beyond
any real buffer. Structural recursion keeps it kernel-evaluable. -/
def isqrt (n : Nat) : Nat := isqrtAux n n

/-- Fallback dimension estimate of lines 83-87: pixels = image_data_size // 3
(Python floor division on a possibly negative size), width = int(pixels**0.5),
height = pixels // width. A negative pixels makes pixels ** 0.5 complex and
int() of it raise TypeError; a zero width (only when pixels = 0) makes the
height division raise ZeroDivisionError; both are caught by the handler. -/
def fallbackDims (imageDataSize : Int) : Except ImgError (Nat × Nat) :=
  let pixels : Int := Int.fdiv imageDataSize 3
  if pixels < 0 then Except.error ImgError.typeError
  else
    let w := isqrt pixels.toNat
    if w = 0 then Except.error ImgError.zeroDivisionError
    else Except.ok (w, pixels.toNat / w)

/-- Resolution reconciliation: the matched candidate when one is within
tolerance, otherwise the computed fallback. -/
def resolveDims (imageDataSize : Int) : Except ImgError (Nat × Nat) :=
  match matchResolution imageDataSize with
  | some wh => Except.ok wh
  | none => fallbackDims imageDataSize

/-- Decode steps after the rgb8 marker has been located (lines 63-109):
header_size = rgb8_pos + 5 + 1 + 4 (5-byte encoding field, 1-byte
is_bigendian, 4-byte step), image data from header_size to the end,
dimensions reconciled from the data size, truncation of surplus bytes to
height * width * 3, and the reshape that raises (insufficientPayload) when
fewer bytes than that remain. -/
def decodeAfterRgb8 (payload : List Nat) (rgb8Pos : Nat) : Except ImgError DecodedFrame :=
  let headerSize := rgb8Pos + 5 + 1 + 4
  let imageDataSize : Int := (payload.length : Int) - (headerSize : Int)
  match resolveDims imageDataSize with
  | Except.error e => Except.error e
  | Except.ok (width, height) =>
    let imageData := payload.drop headerSize
    let expectedPixels := height * width * 3
    let imageArray :=
      if expectedPixels < imageData.length then imageData.take expectedPixels else imageData
    if imageArray.length = expectedPixels then
      Except.ok ⟨width, height, imageArray⟩
    else
      Except.error ImgError.insufficientPayload

/-- Embedding of parse_ros2_image (zenoh_person_follow.py lines 18-115) with
the exit taken recorded as an ImgError: find the camera marker, check the
length-prefix position, unpack the frame_id length and the two embedded
dimension fields (whose values the later reconciliation always overwrites,
but whose unpack can still raise on a short slice), find the rgb8 marker,
then decode the payload after it. -/
def parseRos2ImageE (payload : List Nat) : Except ImgError DecodedFrame :=
  match findSub cameraMarker payload with
  | none => Except.error (ImgError.markerNotFound "frame_id")
  | some cameraPos =>
    if cameraPos < 4 then Except.error ImgError.invalidOffset
    else
      match readU32LE payload (cameraPos - 4) with
      | none => Except.error ImgError.structError
      | some frameIdLen =>
        match readU32LE payload (cameraPos + frameIdLen) with
        | none => Except.error ImgError.structError
        | some _embeddedHeight =>
          match readU32LE payload (cameraPos + frameIdLen + 4) with
          | none => Except.error ImgError.structError
          | some _embeddedWidth =>
            match findSub rgb8Marker payload with
            | none => Except.error (ImgError.markerNotFound "encoding")
            | some rgb8Pos => decodeAfterRgb8 payload rgb8Pos

/-- The function as the caller sees it: the try/except wrapper of lines 20 and
111-115 turns every failure, explicit return None or raised exception alike,
into None. -/
def parse_ros2_image (payload : List Nat) : Option DecodedFrame :=
  (parseRos2ImageE payload).toOption

/-- A 28-byte synthetic frame header: 4-byte little-endian frame_id length (6),
the bytes of camera, the two 4-byte embedded dimension fields (zero), the
bytes of rgb8, a NUL terminator, the is_bigendian byte and the 4-byte step
field. The camera marker sits at offset 4, the rgb8 marker at offset 18, so
the pixel payload of any buffer hdr28 ++ rest begins at 18 + 5 + 1 + 4 = 28. -/
def hdr28 : List Nat :=
  [6, 0, 0, 0, 99, 97, 109, 101, 114, 97, 0, 0, 0, 0, 0, 0, 0, 0,
   114, 103, 98, 56, 0, 0, 1, 2, 3, 4]

/-- Synthetic frame with a 3-byte pixel payload (one 1 x 1 RGB pixel). -/
def bufC2 : List Nat := hdr28 ++ [10, 20, 30]

/-- Synthetic frame with a 141-byte payload: 47 pixels, fallback 6 x 7. -/
def bufC4 : List Nat := hdr28 ++ List.replicate 141 9

/-- Synthetic frame with a 50-byte payload: 16 pixels, fallback 4 x 4,
2 trailing bytes beyond 4 * 4 * 3 = 48. -/
def bufC5a : List Nat := hdr28 ++ List.replicate 50 9

/-- Synthetic frame whose 921550-byte payload matches candidate (640, 480)
within tolerance but is 50 bytes short of 640 * 480 * 3. -/
def bufC5b : List Nat := hdr28 ++ List.replicate 921550 7

/-- Synthetic frame whose payload is exactly 640 * 480 * 3 bytes. -/
def bufC3 : List Nat := hdr28 ++ List.replicate 921600 7

theorem bytesToNatLE_toLEBytes8 (x : Nat) (hx : x < 2 ^ 64) :
    bytesToNatLE (toLEBytes8 x) = x := by
  simp only [toLEBytes8, bytesToNatLE]
  omega

set_option maxHeartbeats 2000000 in
/-- C1: for every pair of finite 64-bit floats (x, z), decoding the buffer
produced by create_twist_message x z with parse_twist_message succeeds and
yields linear.x = x and angular.z = z bit-for-bit (the remaining axes are 0). -/
theorem claim_C1 (x z : Nat) (hx : x < 2 ^ 64) (hz : z < 2 ^ 64)
    (_hfx : isFiniteF64 x) (_hfz : isFiniteF64 z) :
    parse_twist_message (create_twist_message x z) =
      Except.ok ⟨⟨x, 0, 0⟩, ⟨0, 0, z⟩⟩ := by
  have h : parse_twist_message (create_twist_message x z) =
      Except.ok ⟨⟨bytesToNatLE (toLEBytes8 x), 0, 0⟩,
                 ⟨0, 0, bytesToNatLE (toLEBytes8 z)⟩⟩ := rfl
  rw [h, bytesToNatLE_toLEBytes8 x hx, bytesToNatLE_toLEBytes8 z hz]

/-- Witness for C1 at the bit patterns of 1.0 and -2.5. -/
theorem claim_C1_witness :
    parse_twist_message (create_twist_message 4607182418800017408 13832654000649994240) =
      Except.ok ⟨⟨4607182418800017408, 0, 0⟩, ⟨0, 0, 13832654000649994240⟩⟩ :=
  claim_C1 4607182418800017408 13832654000649994240
    (by norm_num) (by norm_num) (by decide) (by decide)

/-- C6: parse_twist_message fails with MalformedLength exactly when the buffer
length is not 48, and on every 48-byte buffer it succeeds, reading six
little-endian 64-bit floats at offsets 0, 8, 16 (linear) and 24, 32, 40
(angular) with no further validation of the values. -/
theorem claim_C6 (data : List Nat) :
    (data.length ≠ 48 →
      parse_twist_message data = Except.error (TwistError.malformedLength data.length)) ∧
    (data.length = 48 →
      parse_twist_message data =
        Except.ok ⟨⟨readF64At data 0, readF64At data 8, readF64At data 16⟩,
                   ⟨readF64At data 24, readF64At data 32, readF64At data 40⟩⟩) := by
  constructor
  · intro h
    simp [parse_twist_message, h]
  · intro h
    simp [parse_twist_message, h]

/-- Witness for C6: a 1000-byte buffer fails with MalformedLength 1000, and a
48-byte all-ones buffer (every double a NaN pattern) still parses. -/
theorem claim_C6_witness :
    parse_twist_message (List.replicate 1000 0) =
      Except.error (TwistError.malformedLength 1000) ∧
    parse_twist_message (List.replicate 48 255) =
      Except.ok ⟨⟨readF64At (List.replicate 48 255) 0, readF64At (List.replicate 48 255) 8,
                  readF64At (List.replicate 48 255) 16⟩,
                 ⟨readF64At (List.replicate 48 255) 24, readF64At (List.replicate 48 255) 32,
                  readF64At (List.replicate 48 255) 40⟩⟩ := by
  constructor
  · have h := (claim_C6 (List.replicate 1000 0)).1
      (by rw [List.length_replicate]; norm_num)
    rw [List.length_replicate] at h
    exact h
  · exact (claim_C6 (List.replicate 48 255)).2 (by rw [List.length_replicate])

/-- C7: create_twist_message always returns exactly 48 bytes: the little-endian
bytes of linear.x in [0,8), zeros throughout [8,40) (linear.y, linear.z,
angular.x, angular.y all encoded as 0.0), and the little-endian bytes of
angular.z in [40,48). -/
theorem claim_C7 (x z : Nat) :
    (create_twist_message x z).length = 48 ∧
    (create_twist_message x z).take 8 = toLEBytes8 x ∧
    ((create_twist_message x z).drop 8).take 32 = List.replicate 32 0 ∧
    (create_twist_message x z).drop 40 = toLEBytes8 z := by
  refine ⟨?_, ?_, ?_, ?_⟩ <;>
    simp [create_twist_message, toLEBytes8, List.cons_append, List.nil_append,
      List.replicate]

theorem isqrtAux_eq_sqrt (n k : Nat) (hk : Nat.sqrt n ≤ k) : isqrtAux n k = Nat.sqrt n := by
  induction k with
  | zero => unfold isqrtAux; omega
  | succ k ih =>
    unfold isqrtAux
    by_cases hle : (k + 1) * (k + 1) ≤ n
    · rw [if_pos hle]
      have h1 : k + 1 ≤ Nat.sqrt n := Nat.le_sqrt.2 hle
      omega
    · rw [if_neg hle]
      have h2 : Nat.sqrt n ≠ k + 1 := by
        intro hcontra
        apply hle
        rw [← hcontra]
        exact Nat.sqrt_le n
      exact ih (by omega)

theorem isqrt_eq_sqrt (n : Nat) : isqrt n = Nat.sqrt n :=
  isqrtAux_eq_sqrt n n (Nat.sqrt_le_self n)

theorem findSubAux_eq_none_of (pat : List Nat) (l : List Nat)
    (h : ∀ j, listStartsWith pat (l.drop j) = false) :
    ∀ i, findSubAux pat l i = none := by
  induction l with
  | nil =>
    intro i
    have h0 := h 0
    simp only [List.drop_zero] at h0
    simp [findSubAux, h0]
  | cons x xs ih =>
    intro i
    have h0 := h 0
    simp only [List.drop_zero] at h0
    have htail : ∀ j, listStartsWith pat (xs.drop j) = false := fun j => h (j + 1)
    simp [findSubAux, h0, ih htail]

theorem findSub_eq_none_of (pat l : List Nat)
    (h : ∀ j, listStartsWith pat (l.drop j) = false) :
    findSub pat l = none :=
  findSubAux_eq_none_of pat l h 0

theorem find_first {α : Type} (p : α → Bool) (l : List α) (x : α)
    (h : l.find? p = some x) :
    p x = true ∧ ∃ i : Nat, l[i]? = some x ∧
      ∀ j : Nat, j < i → ∀ y, l[j]? = some y → p y = false := by
  induction l with
  | nil => simp [List.find?] at h
  | cons a t ih =>
    by_cases hpa : p a = true
    · rw [List.find?_cons_of_pos _ hpa] at h
      obtain rfl : a = x := by injection h
      exact ⟨hpa, 0, by simp, fun j hj => absurd hj (by omega)⟩
    · have hpa' : p a = false := by
        cases hv : p a
        · rfl
        · exact absurd hv hpa
      rw [List.find?_cons_of_neg _ (by simp [hpa'])] at h
      obtain ⟨hpx, i, hget, hbefore⟩ := ih h
      refine ⟨hpx, i + 1, by simpa using hget, ?_⟩
      intro j hj y hy
      cases j with
      | zero =>
        obtain rfl : a = y := by simpa using hy
        exact hpa'
      | succ k =>
        exact hbefore k (by omega) y (by simpa using hy)

theorem fallbackDims_ok_inv (s : Int) (w h : Nat)
    (hok : fallbackDims s = Except.ok (w, h)) :
    0 ≤ Int.fdiv s 3 ∧ w = isqrt (Int.fdiv s 3).toNat ∧ w ≠ 0 ∧
      h = (Int.fdiv s 3).toNat / w := by
  unfold fallbackDims at hok
  by_cases hneg : Int.fdiv s 3 < 0
  · rw [if_pos hneg] at hok
    cases hok
  · rw [if_neg hneg] at hok
    by_cases hw : isqrt (Int.fdiv s 3).toNat = 0
    · rw [if_pos hw] at hok
      cases hok
    · rw [if_neg hw] at hok
      obtain ⟨rfl, rfl⟩ : isqrt (Int.fdiv s 3).toNat = w ∧ (Int.fdiv s 3).toNat / isqrt (Int.fdiv s 3).toNat = h := by
        have := Except.ok.inj hok
        exact ⟨congrArg Prod.fst this, congrArg Prod.snd this⟩
      exact ⟨by omega, rfl, hw, rfl⟩

theorem parseRos2ImageE_ok_inv (payload : List Nat) (frame : DecodedFrame)
    (hok : parseRos2ImageE payload = Except.ok frame) :
    ∃ p, findSub rgb8Marker payload = some p ∧
      decodeAfterRgb8 payload p = Except.ok frame := by
  unfold parseRos2ImageE at hok
  cases hc : findSub cameraMarker payload with
  | none => simp [hc] at hok
  | some cameraPos =>
    simp only [hc] at hok
    by_cases h4 : cameraPos < 4
    · simp [if_pos h4] at hok
    · rw [if_neg h4] at hok
      cases h1 : readU32LE payload (cameraPos - 4) with
      | none => simp [h1] at hok
      | some frameIdLen =>
        simp only [h1] at hok
        cases h2 : readU32LE payload (cameraPos + frameIdLen) with
        | none => simp [h2] at hok
        | some eh =>
          simp only [h2] at hok
          cases h3 : readU32LE payload (cameraPos + frameIdLen + 4) with
          | none => simp [h3] at hok
          | some ew =>
            simp only [h3] at hok
            cases h5 : findSub rgb8Marker payload with
            | none => simp [h5] at hok
            | some p =>
              simp only [h5] at hok
              exact ⟨p, rfl, hok⟩

theorem decodeAfterRgb8_ok_inv (payload : List Nat) (q : Nat) (frame : DecodedFrame)
    (hok : decodeAfterRgb8 payload q = Except.ok frame) :
    resolveDims ((payload.length : Int) - ((q + 5 + 1 + 4 : Nat) : Int)) =
      Except.ok (frame.width, frame.height) ∧
    frame.pixels = (payload.drop (q + 5 + 1 + 4)).take (frame.height * frame.width * 3) ∧
    frame.pixels.length = frame.height * frame.width * 3 := by
  simp only [decodeAfterRgb8] at hok
  cases hres : resolveDims ((payload.length : Int) - ((q + 5 + 1 + 4 : Nat) : Int)) with
  | error e =>
    rw [hres] at hok
    exact Except.noConfusion hok
  | ok wh =>
    obtain ⟨w, ht⟩ := wh
    rw [hres] at hok
    simp only [] at hok
    by_cases hlt : ht * w * 3 < (payload.drop (q + 5 + 1 + 4)).length
    · rw [if_pos hlt] at hok
      have hlen : ((payload.drop (q + 5 + 1 + 4)).take (ht * w * 3)).length = ht * w * 3 := by
        rw [List.length_take]
        omega
      rw [if_pos hlen] at hok
      obtain rfl : (⟨w, ht, (payload.drop (q + 5 + 1 + 4)).take (ht * w * 3)⟩ : DecodedFrame) = frame :=
        Except.ok.inj hok
      exact ⟨rfl, rfl, hlen⟩
    · rw [if_neg hlt] at hok
      by_cases heq : (payload.drop (q + 5 + 1 + 4)).length = ht * w * 3
      · rw [if_pos heq] at hok
        obtain rfl : (⟨w, ht, payload.drop (q + 5 + 1 + 4)⟩ : DecodedFrame) = frame :=
          Except.ok.inj hok
        exact ⟨rfl, (List.take_of_length_le (le_of_eq heq)).symm, heq⟩
      · rw [if_neg heq] at hok
        exact Except.noConfusion hok

theorem decodeAfterRgb8_ok_case (payload : List Nat) (q w h : Nat)
    (hres : resolveDims ((payload.length : Int) - ((q + 5 + 1 + 4 : Nat) : Int)) = Except.ok (w, h))
    (hge : h * w * 3 ≤ (payload.drop (q + 5 + 1 + 4)).length) :
    decodeAfterRgb8 payload q =
      Except.ok ⟨w, h, (payload.drop (q + 5 + 1 + 4)).take (h * w * 3)⟩ := by
  simp only [decodeAfterRgb8]
  rw [hres]
  simp only []
  by_cases hlt : h * w * 3 < (payload.drop (q + 5 + 1 + 4)).length
  · rw [if_pos hlt]
    have hlen : ((payload.drop (q + 5 + 1 + 4)).take (h * w * 3)).length = h * w * 3 := by
      rw [List.length_take]
      omega
    rw [if_pos hlen]
  · rw [if_neg hlt]
    have heq : (payload.drop (q + 5 + 1 + 4)).length = h * w * 3 := by omega
    rw [if_pos heq, List.take_of_length_le (le_of_eq heq)]

theorem decodeAfterRgb8_short (payload : List Nat) (q w h : Nat)
    (hres : resolveDims ((payload.length : Int) - ((q + 5 + 1 + 4 : Nat) : Int)) = Except.ok (w, h))
    (hlt : (payload.drop (q + 5 + 1 + 4)).length < h * w * 3) :
    decodeAfterRgb8 payload q = Except.error ImgError.insufficientPayload := by
  simp only [decodeAfterRgb8]
  rw [hres]
  simp only []
  have h1 : ¬ (h * w * 3 < (payload.drop (q + 5 + 1 + 4)).length) := by omega
  rw [if_neg h1]
  have h2 : (payload.drop (q + 5 + 1 + 4)).length ≠ h * w * 3 := by omega
  rw [if_neg h2]

theorem findSub_camera_hdr28 (rest : List Nat) :
    findSub cameraMarker (hdr28 ++ rest) = some 4 := by
  simp [hdr28, cameraMarker, findSub, findSubAux, listStartsWith, List.cons_append]

theorem findSub_rgb8_hdr28 (rest : List Nat) :
    findSub rgb8Marker (hdr28 ++ rest) = some 18 := by
  simp [hdr28, rgb8Marker, findSub, findSubAux, listStartsWith, List.cons_append]

theorem readU32_hdr28_0 (rest : List Nat) : readU32LE (hdr28 ++ rest) 0 = some 6 := by
  simp [hdr28, readU32LE, List.cons_append]

theorem readU32_hdr28_10 (rest : List Nat) : readU32LE (hdr28 ++ rest) 10 = some 0 := by
  simp [hdr28, readU32LE, List.cons_append]

theorem readU32_hdr28_14 (rest : List Nat) : readU32LE (hdr28 ++ rest) 14 = some 0 := by
  simp [hdr28, readU32LE, List.cons_append]

theorem drop28_hdr28 (rest : List Nat) : (hdr28 ++ rest).drop 28 = rest := by
  simp [hdr28, List.cons_append]

theorem length_hdr28 (rest : List Nat) : (hdr28 ++ rest).length = 28 + rest.length := by
  simp [hdr28]
  omega

theorem parse_hdr28 (rest : List Nat) :
    parseRos2ImageE (hdr28 ++ rest) = decodeAfterRgb8 (hdr28 ++ rest) 18 := by
  simp [parseRos2ImageE, findSub_camera_hdr28, findSub_rgb8_hdr28,
    readU32_hdr28_0, readU32_hdr28_10, readU32_hdr28_14]

/-- C8: a buffer nowhere containing the camera byte sequence makes
parseRos2ImageE fail with MarkerNotFound frame_id as its very first step,
and the caller-visible result is None; no other error path runs first. -/
theorem claim_C8 (payload : List Nat)
    (habsent : ∀ j, listStartsWith cameraMarker (payload.drop j) = false) :
    parseRos2ImageE payload = Except.error (ImgError.markerNotFound "frame_id") ∧
    parse_ros2_image payload = none := by
  have hnone : findSub cameraMarker payload = none := findSub_eq_none_of _ _ habsent
  refine ⟨?_, ?_⟩
  · simp [parseRos2ImageE, hnone]
  · simp [parse_ros2_image, parseRos2ImageE, hnone, Except.toOption]

/-- Witness for C8 on the 3-byte buffer [1, 2, 3]. -/
theorem claim_C8_witness :
    parseRos2ImageE [1, 2, 3] = Except.error (ImgError.markerNotFound "frame_id") ∧
    parse_ros2_image [1, 2, 3] = none := by
  refine claim_C8 [1, 2, 3] ?_
  intro j
  match j with
  | 0 => rfl
  | 1 => rfl
  | 2 => rfl
  | j + 3 =>
    rw [List.drop_eq_nil_of_le (by simp)]
    rfl

/-- C9: parse_ros2_image is total: every failure of any decode step, explicit
return or raised exception alike, is converted to None by the try/except
wrapper, and the result is always either None or a decoded frame. -/
theorem claim_C9 (payload : List Nat) :
    (∀ e, parseRos2ImageE payload = Except.error e → parse_ros2_image payload = none) ∧
    (parse_ros2_image payload = none ∨ ∃ frame, parse_ros2_image payload = some frame) := by
  constructor
  · intro e he
    simp [parse_ros2_image, he, Except.toOption]
  · cases h : parse_ros2_image payload with
    | none => exact Or.inl rfl
    | some frame => exact Or.inr ⟨frame, rfl⟩

/-- Witness for C9 on the empty buffer, which fails the first marker search. -/
theorem claim_C9_witness : parse_ros2_image [] = none :=
  (claim_C9 []).1 (ImgError.markerNotFound "frame_id") rfl

/-- C2 as frozen is false: the claim places the pixel payload at
encoding_marker_position + 4 + 1 + 4, but the code uses rgb8_pos + 5 + 1 + 4
(line 65 and line 90 of zenoh_person_follow.py). On bufC2 the decoder locates
rgb8 at 18 and returns the pixel bytes starting at 28, not the slice starting
at 27. -/
theorem claim_C2_counterexample :
    findSub rgb8Marker bufC2 = some 18 ∧
    parseRos2ImageE bufC2 = Except.ok ⟨1, 1, [10, 20, 30]⟩ ∧
    ¬ (((⟨1, 1, [10, 20, 30]⟩ : DecodedFrame).pixels =
        (bufC2.drop (18 + 4 + 1 + 4)).take (1 * 1 * 3))) ∧
    bufC2.length - (18 + 4 + 1 + 4) ≠ 1 * 1 * 3 := by
  refine ⟨by decide, by decide, by decide, by decide⟩

/-- C2 amended: the pixel payload of a decoded frame begins at
encoding_marker_position + 5 + 1 + 4 (the 5-byte encoding field - the 4
ASCII bytes of rgb8 plus one following byte - then 1 byte is_bigendian and
4 bytes step) and runs to the end of the buffer, truncated to the expected
pixel count. -/
theorem claim_C2_amended (payload : List Nat) (p : Nat) (frame : DecodedFrame)
    (hfind : findSub rgb8Marker payload = some p)
    (hok : parseRos2ImageE payload = Except.ok frame) :
    frame.pixels = (payload.drop (p + 5 + 1 + 4)).take (frame.height * frame.width * 3) := by
  obtain ⟨q, hq, hdec⟩ := parseRos2ImageE_ok_inv payload frame hok
  rw [hfind] at hq
  obtain rfl : p = q := Option.some.inj hq
  exact (decodeAfterRgb8_ok_inv payload p frame hdec).2.1

/-- Witness for the amended C2 on bufC2. -/
theorem claim_C2_amended_witness :
    parseRos2ImageE bufC2 = Except.ok ⟨1, 1, [10, 20, 30]⟩ ∧
    (DecodedFrame.mk 1 1 [10, 20, 30]).pixels =
      (bufC2.drop (18 + 5 + 1 + 4)).take
        ((DecodedFrame.mk 1 1 [10, 20, 30]).height * (DecodedFrame.mk 1 1 [10, 20, 30]).width * 3) := by
  have hok : parseRos2ImageE bufC2 = Except.ok ⟨1, 1, [10, 20, 30]⟩ := by decide
  exact ⟨hok, claim_C2_amended bufC2 18 ⟨1, 1, [10, 20, 30]⟩ (by decide) hok⟩

theorem matchResolution_none_small (s : Int) (hs : s < 921501) :
    matchResolution s = none := by
  rw [matchResolution]
  rw [List.find?_eq_none]
  intro x hx
  fin_cases hx <;> simp <;> omega

/-- C5: a decoded frame's pixel slice has length exactly width * height * 3,
trailing surplus bytes being discarded, and when fewer bytes than that remain
after the header the decode fails with InsufficientPayload instead of
returning a partial frame. -/
theorem claim_C5 (payload : List Nat) :
    (∀ frame, parseRos2ImageE payload = Except.ok frame →
      frame.pixels.length = frame.width * frame.height * 3) ∧
    (∀ p w h : Nat,
      resolveDims ((payload.length : Int) - ((p + 5 + 1 + 4 : Nat) : Int)) = Except.ok (w, h) →
      (payload.drop (p + 5 + 1 + 4)).length < h * w * 3 →
      decodeAfterRgb8 payload p = Except.error ImgError.insufficientPayload) := by
  constructor
  · intro frame hok
    obtain ⟨q, _, hdec⟩ := parseRos2ImageE_ok_inv payload frame hok
    have h3 := (decodeAfterRgb8_ok_inv payload q frame hdec).2.2
    rw [h3, Nat.mul_comm frame.height frame.width]
  · intro p w h hres hlt
    exact decodeAfterRgb8_short payload p w h hres hlt

/-- Witness for C5: bufC5a has 2 trailing bytes beyond 4 * 4 * 3 and decodes
to exactly 48 pixel bytes; bufC5b matches candidate (640, 480) but is 50
bytes short and fails with InsufficientPayload. -/
theorem claim_C5_witness :
    parseRos2ImageE bufC5a = Except.ok ⟨4, 4, List.replicate 48 9⟩ ∧
    (DecodedFrame.mk 4 4 (List.replicate 48 9)).pixels.length =
      (DecodedFrame.mk 4 4 (List.replicate 48 9)).width *
        (DecodedFrame.mk 4 4 (List.replicate 48 9)).height * 3 ∧
    decodeAfterRgb8 bufC5b 18 = Except.error ImgError.insufficientPayload := by
  have hok : parseRos2ImageE bufC5a = Except.ok ⟨4, 4, List.replicate 48 9⟩ := by decide
  refine ⟨hok, (claim_C5 bufC5a).1 ⟨4, 4, List.replicate 48 9⟩ hok, ?_⟩
  have hlen : bufC5b.length = 921578 := by
    rw [bufC5b, List.length_append, List.length_replicate]
    simp [hdr28]
  have hres : resolveDims ((bufC5b.length : Int) - ((18 + 5 + 1 + 4 : Nat) : Int)) =
      Except.ok (640, 480) := by
    rw [hlen]
    decide
  have hlt : (bufC5b.drop (18 + 5 + 1 + 4)).length < 480 * 640 * 3 := by
    rw [List.length_drop, hlen]
    norm_num
  exact (claim_C5 bufC5b).2 18 640 480 hres hlt

/-- C4: when no resolution candidate lies within the 100-byte tolerance, the
decoded frame carries the fallback estimate: width is the integer square root
of pixel_count = raw_payload_size // 3 and height is pixel_count / width by
integer division. -/
theorem claim_C4 (payload : List Nat) (p : Nat) (frame : DecodedFrame)
    (hfind : findSub rgb8Marker payload = some p)
    (hnomatch : matchResolution ((payload.length : Int) - ((p + 5 + 1 + 4 : Nat) : Int)) = none)
    (hok : parseRos2ImageE payload = Except.ok frame) :
    frame.width =
      Nat.sqrt ((Int.fdiv ((payload.length : Int) - ((p + 5 + 1 + 4 : Nat) : Int)) 3).toNat) ∧
    frame.height =
      (Int.fdiv ((payload.length : Int) - ((p + 5 + 1 + 4 : Nat) : Int)) 3).toNat / frame.width := by
  obtain ⟨q, hq, hdec⟩ := parseRos2ImageE_ok_inv payload frame hok
  rw [hfind] at hq
  obtain rfl : p = q := Option.some.inj hq
  have hres := (decodeAfterRgb8_ok_inv payload p frame hdec).1
  rw [resolveDims, hnomatch] at hres
  obtain ⟨hpos, hw, hwne, hh⟩ := fallbackDims_ok_inv _ _ _ hres
  rw [isqrt_eq_sqrt] at hw
  exact ⟨hw, hh⟩

set_option maxRecDepth 8000 in
/-- Witness for C4 on bufC4: 141 payload bytes, 47 pixels, no candidate in
tolerance, fallback width 6 = floor sqrt 47 and height 7 = 47 / 6. -/
theorem claim_C4_witness :
    parseRos2ImageE bufC4 = Except.ok ⟨6, 7, List.replicate 126 9⟩ ∧
    (DecodedFrame.mk 6 7 (List.replicate 126 9)).width =
      Nat.sqrt ((Int.fdiv ((bufC4.length : Int) - ((18 + 5 + 1 + 4 : Nat) : Int)) 3).toNat) ∧
    (DecodedFrame.mk 6 7 (List.replicate 126 9)).height =
      (Int.fdiv ((bufC4.length : Int) - ((18 + 5 + 1 + 4 : Nat) : Int)) 3).toNat /
        (DecodedFrame.mk 6 7 (List.replicate 126 9)).width := by
  have hok : parseRos2ImageE bufC4 = Except.ok ⟨6, 7, List.replicate 126 9⟩ := by decide
  have hno : matchResolution ((bufC4.length : Int) - ((18 + 5 + 1 + 4 : Nat) : Int)) = none := by
    have hlen : bufC4.length = 169 := by
      rw [bufC4, List.length_append, List.length_replicate]
      simp [hdr28]
    rw [hlen]
    decide
  have h := claim_C4 bufC4 18 ⟨6, 7, List.replicate 126 9⟩ (by decide) hno hok
  exact ⟨hok, h.1, h.2⟩

/-- C3: resolution reconciliation adopts the first candidate of the static
table, scanned in its fixed priority order, whose expected size w * h * 3 is
within 100 bytes of the raw payload size; in particular a frame whose raw
payload size is exactly 640 * 480 * 3 decodes to width 640 and height 480
no matter what the embedded dimension fields said. -/
theorem claim_C3 :
    (∀ s : Int, ∀ w h : Nat, matchResolution s = some (w, h) →
      (((w : Int) * (h : Int) * 3) - s).natAbs < 100 ∧
      ∃ i : Nat, common_resolutions[i]? = some (w, h) ∧
        ∀ j : Nat, j < i → ∀ wh, common_resolutions[j]? = some wh →
          ¬ ((((wh.1 : Int) * (wh.2 : Int) * 3) - s).natAbs < 100)) ∧
    (∀ payload p frame, findSub rgb8Marker payload = some p →
      (payload.length : Int) - ((p + 5 + 1 + 4 : Nat) : Int) = 640 * 480 * 3 →
      parseRos2ImageE payload = Except.ok frame →
      frame.width = 640 ∧ frame.height = 480) := by
  constructor
  · intro s w h hm
    obtain ⟨hp, i, hget, hbefore⟩ := find_first _ _ _ hm
    refine ⟨by simpa using hp, i, hget, ?_⟩
    intro j hj wh hwh
    have := hbefore j hj wh hwh
    simpa using this
  · intro payload p frame hfind hsize hok
    obtain ⟨q, hq, hdec⟩ := parseRos2ImageE_ok_inv payload frame hok
    rw [hfind] at hq
    obtain rfl : p = q := Option.some.inj hq
    have hres := (decodeAfterRgb8_ok_inv payload p frame hdec).1
    rw [hsize] at hres
    have heval : resolveDims (640 * 480 * 3 : Int) = Except.ok (640, 480) := by decide
    rw [heval] at hres
    have hpair := Except.ok.inj hres
    exact ⟨(congrArg Prod.fst hpair).symm, (congrArg Prod.snd hpair).symm⟩

/-- Witness for C3 on bufC3, whose payload is exactly 640 * 480 * 3 bytes:
the decode selects (640, 480) although the embedded dimension fields read 0. -/
theorem claim_C3_witness :
    parseRos2ImageE bufC3 = Except.ok ⟨640, 480, List.replicate 921600 7⟩ ∧
    (DecodedFrame.mk 640 480 (List.replicate 921600 7)).width = 640 ∧
    (DecodedFrame.mk 640 480 (List.replicate 921600 7)).height = 480 := by
  have hlen : bufC3.length = 921628 := by
    rw [bufC3, List.length_append, List.length_replicate]
    simp [hdr28]
  have hres : resolveDims ((bufC3.length : Int) - ((18 + 5 + 1 + 4 : Nat) : Int)) =
      Except.ok (640, 480) := by
    rw [hlen]
    decide
  have hge : 480 * 640 * 3 ≤ (bufC3.drop (18 + 5 + 1 + 4)).length := by
    rw [List.length_drop, hlen]
  have hok0 := decodeAfterRgb8_ok_case bufC3 18 640 480 hres hge
  have htake : (bufC3.drop (18 + 5 + 1 + 4)).take (480 * 640 * 3) = List.replicate 921600 7 := by
    have h28 : (18 + 5 + 1 + 4 : Nat) = 28 := by norm_num
    rw [h28, bufC3, drop28_hdr28, List.take_replicate]
    norm_num
  have hok : parseRos2ImageE bufC3 = Except.ok ⟨640, 480, List.replicate 921600 7⟩ := by
    rw [show parseRos2ImageE bufC3 = decodeAfterRgb8 bufC3 18 from by
          rw [bufC3]; exact parse_hdr28 _,
        hok0, htake]
  have hsize : (bufC3.length : Int) - ((18 + 5 + 1 + 4 : Nat) : Int) = 640 * 480 * 3 := by
    rw [hlen]
    norm_num
  have hfind : findSub rgb8Marker bufC3 = some 18 := by
    rw [bufC3]
    exact findSub_rgb8_hdr28 _
  have h := claim_C3.2 bufC3 18 ⟨640, 480, List.replicate 921600 7⟩ hfind hsize hok
  exact ⟨hok, h.1, h.2⟩

/-- C10: a frame whose raw payload holds fewer than 3 bytes cannot decode -
no candidate matches, the fallback width is 0 and the height division by it
raises, so the caller sees None - and more generally no decoded frame ever
carries width 0 or height 0. -/
theorem claim_C10 :
    (∀ payload p, findSub rgb8Marker payload = some p →
      (payload.length : Int) - ((p + 5 + 1 + 4 : Nat) : Int) < 3 →
      parse_ros2_image payload = none) ∧
    (∀ payload frame, parseRos2ImageE payload = Except.ok frame →
      0 < frame.width ∧ 0 < frame.height) := by
  constructor
  · intro payload p hfind hsmall
    cases hE : parseRos2ImageE payload with
    | error e => simp [parse_ros2_image, hE, Except.toOption]
    | ok frame =>
      exfalso
      obtain ⟨q, hq, hdec⟩ := parseRos2ImageE_ok_inv payload frame hE
      rw [hfind] at hq
      obtain rfl : p = q := Option.some.inj hq
      have hres := (decodeAfterRgb8_ok_inv payload p frame hdec).1
      have hnomatch : matchResolution ((payload.length : Int) - ((p + 5 + 1 + 4 : Nat) : Int)) =
          none := matchResolution_none_small _ (by omega)
      rw [resolveDims, hnomatch] at hres
      obtain ⟨hpos, hw, hwne, hh⟩ := fallbackDims_ok_inv _ _ _ hres
      rw [isqrt_eq_sqrt] at hw
      have htoNat : (Int.fdiv ((payload.length : Int) - ((p + 5 + 1 + 4 : Nat) : Int)) 3).toNat ≠ 0 := by
        intro h0
        apply hwne
        rw [hw, h0]
        exact Nat.sqrt_zero
      rw [Int.fdiv_eq_ediv _ (by norm_num)] at hpos htoNat
      omega
  · intro payload frame hok
    obtain ⟨q, hq, hdec⟩ := parseRos2ImageE_ok_inv payload frame hok
    have hres := (decodeAfterRgb8_ok_inv payload q frame hdec).1
    rw [resolveDims] at hres
    cases hm : matchResolution ((payload.length : Int) - ((q + 5 + 1 + 4 : Nat) : Int)) with
    | some wh =>
      rw [hm] at hres
      have hpair := Except.ok.inj hres
      have hmem : wh ∈ common_resolutions := List.mem_of_find?_eq_some hm
      have hwpos : 0 < wh.1 ∧ 0 < wh.2 := by
        fin_cases hmem <;> norm_num
      rw [hpair] at hwpos
      exact hwpos
    | none =>
      rw [hm] at hres
      obtain ⟨hpos, hw, hwne, hh⟩ := fallbackDims_ok_inv _ _ _ hres
      have hwpos : 0 < frame.width := Nat.pos_of_ne_zero hwne
      refine ⟨hwpos, ?_⟩
      have hle : frame.width ≤
          (Int.fdiv ((payload.length : Int) - ((q + 5 + 1 + 4 : Nat) : Int)) 3).toNat := by
        rw [hw, isqrt_eq_sqrt]
        exact Nat.sqrt_le_self _
      rw [hh]
      exact (Nat.one_le_div_iff hwpos).2 hle

/-- Witness for C10: a buffer whose rgb8 marker leaves only 2 payload bytes
decodes to None, and the 640 x 480 frame of bufC3 has positive dimensions. -/
theorem claim_C10_witness :
    parse_ros2_image (hdr28 ++ [5, 5]) = none ∧
    0 < (DecodedFrame.mk 1 1 [10, 20, 30]).width ∧
    0 < (DecodedFrame.mk 1 1 [10, 20, 30]).height := by
  refine ⟨?_, ?_⟩
  · refine claim_C10.1 (hdr28 ++ [5, 5]) 18 (by decide) (by decide)
  · have hok : parseRos2ImageE bufC2 = Except.ok ⟨1, 1, [10, 20, 30]⟩ := by decide
    exact claim_C10.2 bufC2 ⟨1, 1, [10, 20, 30]⟩ hok
